import Mathlib

/-!
Verification model of `src/podcasts_scrap.py` (BrazilHistoryPodcastScraper).

The script is a sequential HTML scraper: it discovers podcast ("programa")
links on a landing page, paginates through each show's episode listing,
keeps episodes whose titles match a fixed keyword list, and writes the
results to a CSV file.  Parsed HTML pages ("soups") are modelled as
structures capturing exactly the queries the source performs on them;
network fetches are modelled as an explicit oracle `σ → String → Option Soup × σ`
so that repeated fetches of the same URL may observably differ, and
filesystem writes are modelled as a trace of operations.
-/

namespace PodScrap

/-! ### Python string primitives used by the source -/

/-- Characters removed by Python `str.strip()` (its default whitespace set,
restricted to the ASCII whitespace characters). -/
def isPySpace (c : Char) : Bool :=
  c == ' ' || c == '\t' || c == '\n' || c == '\r' || c == '\x0b' || c == '\x0c'

/-- Python `s.strip()`: drop leading and trailing whitespace. -/
def pyStrip (s : String) : String :=
  String.mk (((s.data.dropWhile isPySpace).reverse.dropWhile isPySpace).reverse)

/-- Python `str.lower()`, restricted to the alphabets the script manipulates:
ASCII `A`–`Z` and the Latin-1 uppercase letters `À`–`Þ` (U+00C0–U+00DE,
excluding the multiplication sign U+00D7) map to their lowercase forms 32
code points higher; every other character is unchanged. -/
def pyCharLower (c : Char) : Char :=
  if 'A' ≤ c && c ≤ 'Z' then Char.ofNat (c.toNat + 32)
  else if 0xC0 ≤ c.toNat && c.toNat ≤ 0xDE && c.toNat != 0xD7 then Char.ofNat (c.toNat + 32)
  else c

/-- Python `s.lower()` applied characterwise. -/
def pyLower (s : String) : String :=
  String.mk (s.data.map pyCharLower)

/-- `chSeqLeads pat l` holds when `pat` is an initial segment of `l`. -/
def chSeqLeads : List Char → List Char → Bool
  | [], _ => true
  | _ :: _, [] => false
  | p :: ps, c :: cs => p == c && chSeqLeads ps cs

/-- `chSeqMem pat l`: `pat` occurs contiguously somewhere in `l`
(Python substring containment on code points). -/
def chSeqMem (pat : List Char) : List Char → Bool
  | [] => chSeqLeads pat []
  | c :: cs => chSeqLeads pat (c :: cs) || chSeqMem pat cs

/-- Python `pat in s` on strings. -/
def strIn (pat s : String) : Bool :=
  chSeqMem pat.data s.data

/-! ### The keyword filter (`brazil_keywords`, `is_brazil_related`) -/

/-- The fixed keyword list `self.brazil_keywords` from `__init__`. -/
def brazil_keywords : List String :=
  ["brasil", "brasileiro", "brasileira", "império", "dom pedro",
   "república", "colonial", "colônia", "independência", "ditadura",
   "vargas", "military", "indígena", "bandeirante", "escravo",
   "abolição", "quilombo", "cangaço", "regência", "provincial",
   "getúlio", "jk", "kubitschek", "nova república", "primeiro reinado",
   "segundo reinado", "período regencial", "guerra do paraguai"]

/-- `is_brazil_related(title)`: lowercase the title and test whether any
keyword occurs in it as a substring. -/
def is_brazil_related (title : String) : Bool :=
  brazil_keywords.any (fun keyword => strIn keyword (pyLower title))

/-! ### Parsed-page data model

A `Soup` records the results of the queries the source runs on a parsed
listing page: `find_all('article', class_='dgbm_post_item')` and
`find('div', class_='alignleft')`. -/

/-- The anchor inside an episode title heading: `.text` is always present,
`['href']` raises `KeyError` when the attribute is absent, hence `Option`. -/
structure Anchor where
  text : String
  href : Option String
  deriving DecidableEq, Repr

/-- The `h2.dg_bm_title` element of an article; `find('a')` may fail. -/
structure TitleElem where
  anchor : Option Anchor
  deriving DecidableEq, Repr

/-- One `article.dgbm_post_item` element: an optional title heading and the
optional text of its `span.published` date element. -/
structure Article where
  titleElem : Option TitleElem
  publishedSpan : Option String
  deriving DecidableEq, Repr

/-- The record produced per episode: `{'titulo', 'link', 'data'}`. -/
structure Episode where
  titulo : String
  link : String
  data : String
  deriving DecidableEq, Repr

/-- The `div.alignleft` pagination container; `find('a')` may fail. -/
structure NavDiv where
  anchorHref : Option String
  deriving DecidableEq, Repr

/-- A parsed listing page, seen through the queries of the source. -/
structure Soup where
  articles : List Article
  alignleft : Option NavDiv
  deriving DecidableEq, Repr

/-! ### Episode extraction (`extract_episode_info`, `scrape_podcast_page`) -/

/-- The date expression of `extract_episode_info`:
`date_elem.text.strip() if date_elem else "Data não disponível"`. -/
def dateOfSpan : Option String → String
  | some d => pyStrip d
  | none => "Data não disponível"

/-- `extract_episode_info(article_soup)`.  Returns the episode (or `none`)
and the list of error messages printed.  Mirror of the source: a missing
`h2.dg_bm_title` or a heading without an anchor returns `None` silently;
a missing `href` raises `KeyError` inside the `try`, which is caught and
logged; a title failing `is_brazil_related` is dropped silently; a missing
`span.published` yields the sentinel date. -/
def extract_episode_info (a : Article) : Option Episode × List String :=
  match a.titleElem with
  | none => (none, [])
  | some te =>
    match te.anchor with
    | none => (none, [])
    | some anc =>
      let title := pyStrip anc.text
      if is_brazil_related title then
        match anc.href with
        | none => (none, ["Erro ao extrair informações do episódio: KeyError: href"])
        | some link => (some (Episode.mk title link (dateOfSpan a.publishedSpan)), [])
      else (none, [])

/-- The episodes one parsed page contributes: the loop body of
`scrape_podcast_page` over `find_all('article', class_='dgbm_post_item')`. -/
def pageEpisodes (s : Soup) : List Episode :=
  s.articles.filterMap (fun a => (extract_episode_info a).1)

/-- A fetch oracle: `get_soup` modelled as a state-passing function, so one
run can answer two fetches of the same URL differently (the state stands
for the network and any logging the caller wants to observe). -/
def Fetch (σ : Type) : Type := σ → String → Option Soup × σ

/-- `scrape_podcast_page(url)`: fetch the page itself (returning `[]` when
the fetch fails) and extract the episodes of each article. -/
def scrape_podcast_page {σ : Type} (fetch : Fetch σ) (st : σ) (url : String) :
    List Episode × σ :=
  match fetch st url with
  | (none, st') => ([], st')
  | (some soup, st') => (pageEpisodes soup, st')

/-- `get_next_page_url(soup)`: the href of the anchor inside
`div.alignleft`, when both exist. -/
def get_next_page_url (s : Soup) : Option String :=
  match s.alignleft with
  | some nav =>
    match nav.anchorHref with
    | some href => some href
    | none => none
  | none => none

/-! ### Pagination (`scrape_podcast`)

The `while current_url:` loop of `scrape_podcast`.  Each iteration fetches
`current_url` once for next-link detection, then `scrape_podcast_page`
fetches the same URL a second time for episode extraction.  The Python
loop has no termination guarantee, so the model takes explicit fuel and
returns `none` exactly when the fuel runs out before the loop exits. -/

def scrape_podcast_loop {σ : Type} (fetch : Fetch σ) :
    Nat → σ → Option String → List Episode → Option (List Episode × σ)
  | _, st, none, acc => some (acc, st)
  | 0, _, some _, _ => none
  | fuel + 1, st, some url, acc =>
    match fetch st url with
    | (none, st') => some (acc, st')
    | (some soup, st') =>
      let r := scrape_podcast_page fetch st' url
      scrape_podcast_loop fetch fuel r.2 (get_next_page_url soup) (acc ++ r.1)

/-- `scrape_podcast(podcast_url)`: run the pagination loop from the show's
starting URL with an empty accumulator. -/
def scrape_podcast {σ : Type} (fetch : Fetch σ) (fuel : Nat) (st : σ) (url : String) :
    Option (List Episode × σ) :=
  scrape_podcast_loop fetch fuel st (some url) []

/-- A deterministic, stateless fetch built from a pure page map. -/
def detFetch {σ : Type} (g : String → Option Soup) : Fetch σ :=
  fun st url => (g url, st)

/-- A fetch that records every URL requested, for observing page visits. -/
def logFetch (g : String → Option Soup) : Fetch (List String) :=
  fun log url => (g url, log ++ [url])

/-- A run of the paginator against a pure page map `g` that ends in a fetch
failure: following next-links from `u`, fetches succeed and return `soups`
in order until a URL whose fetch fails. -/
inductive FetchChain (g : String → Option Soup) : String → List Soup → Prop
  | fail {u : String} : g u = none → FetchChain g u []
  | step {u u' : String} {s : Soup} {rest : List Soup} :
      g u = some s → get_next_page_url s = some u' → FetchChain g u' rest →
      FetchChain g u (s :: rest)

/-- The single-fetch pagination variant described by C4: each iteration
fetches the current URL once and extracts episodes from the same tree used
for next-link detection. -/
def singleFetchPaginator (g : String → Option Soup) :
    Nat → Option String → List Episode → Option (List Episode)
  | _, none, acc => some acc
  | 0, some _, _ => none
  | fuel + 1, some url, acc =>
    match g url with
    | none => some acc
    | some soup =>
      singleFetchPaginator g fuel (get_next_page_url soup) (acc ++ pageEpisodes soup)

/-- A fetch that answers by call index from a fixed oracle list, so two
fetches of the same URL can differ (a transiently failing network). -/
def oracleFetch (o : List (Option Soup)) : Fetch Nat :=
  fun n _ => (o.getD n none, n + 1)

/-- An anchor element as `_process_podcast_link` sees it: its `href`, its
own text, the stripped-source text of a `div.et_pb_text_inner` sibling of
its parent (when the parent exists and such a sibling is found), and the
`title` attribute of a nested `img` (when present). -/
structure LinkElem where
  href : String
  text : String
  siblingText : Option String
  imgTitle : Option String
  deriving DecidableEq, Repr

/-- One recorded podcast: `{'url': ..., 'nome': ...}`. -/
structure PodcastInfo where
  url : String
  nome : String
  deriving DecidableEq, Repr

/-- A `div.dsm-perspective-image-wrapper`: its descendant anchors carrying
an `href`, in document order (`find` takes the head). -/
structure ImageWrapper where
  anchors : List LinkElem
  deriving DecidableEq, Repr

/-- A `div` with an `et_pb_column…` class: its descendant anchors carrying
an `href`, in document order. -/
structure ContentBlock where
  anchors : List LinkElem
  deriving DecidableEq, Repr

/-- The `div#et-main-area` region, seen through the three queries of
`discover_podcast_links`: the image-wrapper divs, all anchors with an
`href`, and the content-block divs. -/
structure MainContent where
  imageWrappers : List ImageWrapper
  anchors : List LinkElem
  contentBlocks : List ContentBlock
  deriving DecidableEq, Repr

/-- The parsed landing page: `find('div', {'id': 'et-main-area'})`. -/
structure LandingSoup where
  mainArea : Option MainContent
  deriving DecidableEq, Repr

/-- The fixed show path segment `'/programa/'`. -/
def progSeg : String := "/programa/"

/-- `'/programa/' in link['href']`. -/
def hrefHasPrograma (l : LinkElem) : Bool := strIn progSeg l.href

/-- Worker for `pySplitSlash`: split a character list at every separator,
keeping empty pieces, like Python `str.split` with an explicit separator. -/
def splitCharGo (sep : Char) (acc : List Char) : List Char → List (List Char)
  | [] => [acc.reverse]
  | c :: cs =>
    if c == sep then acc.reverse :: splitCharGo sep [] cs
    else splitCharGo sep (c :: acc) cs

/-- Python `url.split('/')`. -/
def pySplitSlash (s : String) : List String :=
  (splitCharGo '/' [] s.data).map String.mk

/-- `url.split('/')[-2]`: the second-to-last piece of the slash-split URL.
Every caller guarantees the URL contains `'/programa/'`, so the split has
at least three pieces; the default is never reached. -/
def urlShowName (url : String) : String :=
  ((pySplitSlash url).reverse.drop 1).headD ""

/-- Python `str.title()` over the same restricted alphabet as `pyCharLower`:
is the character a cased letter? -/
def pyIsCased (c : Char) : Bool :=
  ('a' ≤ c && c ≤ 'z') || ('A' ≤ c && c ≤ 'Z') ||
    (0xC0 ≤ c.toNat && c.toNat ≤ 0xFF && c.toNat != 0xD7 && c.toNat != 0xF7)

/-- Uppercase a character (ASCII and Latin-1 lowercase letters). -/
def pyCharUpper (c : Char) : Char :=
  if ('a' ≤ c && c ≤ 'z') || (0xE0 ≤ c.toNat && c.toNat ≤ 0xFE && c.toNat != 0xF7) then
    Char.ofNat (c.toNat - 32)
  else c

/-- Worker for `pyTitle`: the flag records whether the previous character
was cased. -/
def pyTitleGo : Bool → List Char → List Char
  | _, [] => []
  | prevCased, c :: cs =>
    let c' := if pyIsCased c then (if prevCased then pyCharLower c else pyCharUpper c) else c
    c' :: pyTitleGo (pyIsCased c) cs

/-- Python `s.title()`: uppercase each cased character that follows a
non-cased one, lowercase the other cased characters. -/
def pyTitle (s : String) : String := String.mk (pyTitleGo false s.data)

/-- Python `name.replace('-', ' ')`. -/
def replaceDash (s : String) : String :=
  String.mk (s.data.map (fun c => if c == '-' then ' ' else c))

/-- The display-name resolution of `_process_podcast_link`: the anchor's
own stripped text, else the sibling text div's stripped text, else a
nonempty `img` title, else the hyphens-to-spaces title-cased identifier.
(Each stage is accepted only when nonempty, matching Python truthiness.) -/
def resolveDisplayName (l : LinkElem) (name : String) : String :=
  let a := pyStrip l.text
  if a ≠ "" then a
  else
    let b := (l.siblingText.map pyStrip).getD ""
    if b ≠ "" then b
    else
      let c := l.imgTitle.getD ""
      if c ≠ "" then c
      else pyTitle (replaceDash name)

/-- `_process_podcast_link(link, podcasts)`: derive the identifier from the
URL and record `identifier → {url, nome}` only if the identifier is not
already recorded (insertion-ordered association list). -/
def process_podcast_link (l : LinkElem) (d : List (String × PodcastInfo)) :
    List (String × PodcastInfo) :=
  if d.any (fun p => p.1 == urlShowName l.href) then d
  else d ++ [(urlShowName l.href,
    PodcastInfo.mk l.href (resolveDisplayName l (urlShowName l.href)))]

/-- `any(info['url'] == link['href'] for info in podcasts.values())`. -/
def urlRecorded (d : List (String × PodcastInfo)) (url : String) : Bool :=
  d.any (fun p => p.2.url == url)

/-- Pass 1: image-wrapper divs; `find('a', href=True)` then the
`'/programa/'` test. -/
def discoverPass1 (mc : MainContent) (d : List (String × PodcastInfo)) :
    List (String × PodcastInfo) :=
  mc.imageWrappers.foldl (fun d w =>
    match w.anchors.head? with
    | some l => if hrefHasPrograma l then process_podcast_link l d else d
    | none => d) d

/-- Pass 2: every anchor of the region whose `href` contains
`'/programa/'`, skipping URLs already recorded. -/
def discoverPass2 (mc : MainContent) (d : List (String × PodcastInfo)) :
    List (String × PodcastInfo) :=
  (mc.anchors.filter hrefHasPrograma).foldl (fun d l =>
    if urlRecorded d l.href then d else process_podcast_link l d) d

/-- Pass 3: content blocks; the first `'/programa/'` anchor per block,
skipping URLs already recorded. -/
def discoverPass3 (mc : MainContent) (d : List (String × PodcastInfo)) :
    List (String × PodcastInfo) :=
  mc.contentBlocks.foldl (fun d b =>
    match (b.anchors.filter hrefHasPrograma).head? with
    | some l => if urlRecorded d l.href then d else process_podcast_link l d
    | none => d) d

/-- `discover_podcast_links()`: empty on fetch failure or a missing main
area, otherwise the three passes in fixed order over an empty mapping. -/
def discover_podcast_links (landing : Option LandingSoup) :
    List (String × PodcastInfo) :=
  match landing with
  | none => []
  | some soup =>
    match soup.mainArea with
    | none => []
    | some mc => discoverPass3 mc (discoverPass2 mc (discoverPass1 mc []))

/-- The identifiers recorded in a discovery mapping. -/
def dictKeys (d : List (String × PodcastInfo)) : List String := d.map Prod.fst

/-! ### Concrete scenario inputs (used by witnesses and counterexamples) -/

/-- A well-formed article whose title matches the keyword filter. -/
def wArticle : Article :=
  Article.mk (some (TitleElem.mk (some (Anchor.mk " Brasil Colonial "
    (some "https://example.org/e1"))))) none

/-- A one-article page holding `wArticle`, with no pagination div. -/
def wSoup : Soup := Soup.mk [wArticle] none

/-- Page 1 of the pagination scenarios: one matching article, next link `p2`. -/
def sPage1 : Soup := Soup.mk [wArticle] (some (NavDiv.mk (some "p2")))

/-- Page 2: one matching article with a date span, next link `p3`. -/
def sPage2 : Soup :=
  Soup.mk [Article.mk (some (TitleElem.mk (some (Anchor.mk "Era Vargas e o Estado Novo"
    (some "https://example.org/e2"))))) (some " 1 de maio de 1937 ")]
    (some (NavDiv.mk (some "p3")))

/-- Page 3: one matching article, no next link. -/
def sPage3 : Soup :=
  Soup.mk [Article.mk (some (TitleElem.mk (some (Anchor.mk "Guerra do Paraguai"
    (some "https://example.org/e3"))))) none] none

/-- The three-page site of the C5 scenario. -/
def gThree : String → Option Soup := fun u =>
  if u = "p1" then some sPage1
  else if u = "p2" then some sPage2
  else if u = "p3" then some sPage3
  else none

/-- Two-successful-pages-then-failure site for the C3 witness: the fetch of
the third listing page fails. -/
def gFailThird : String → Option Soup := fun u =>
  if u = "p1" then some sPage1
  else if u = "p2" then some sPage2
  else none

/-- Landing-page region for the C6 scenario: three differently formatted
links to the same show path segment `show-x`, one per heuristic pass. -/
def mcC6 : MainContent :=
  MainContent.mk
    [ImageWrapper.mk [LinkElem.mk "https://leituraobrigahistoria.com/programa/show-x/"
      "Show X Bonito" none none]]
    [LinkElem.mk "https://leituraobrigahistoria.com/programa/show-x/" "Show X Bonito" none none,
     LinkElem.mk "/programa/show-x/" "Different Name" none none]
    [ContentBlock.mk [LinkElem.mk "/programa/show-x/?ref=1" "Third Name" none none]]

/-- A page whose next link points back at its own URL. -/
def sLoopPage : Soup := Soup.mk [] (some (NavDiv.mk (some "q")))

/-- A site where every URL serves the self-linking page. -/
def gLoop : String → Option Soup := fun _ => some sLoopPage

/-! ### Result writer (`save_results`) and its CSV text -/

/-- A filesystem effect of `save_results`: a directory creation or an
attempted file write (`rows` the table rows, `quoteAll` whether
`quoting=1` was passed, `ok` whether the write succeeded). -/
inductive FsOp
  | mkdir (dir : String)
  | write (file : String) (rows : List Episode) (quoteAll : Bool) (ok : Bool)
  deriving DecidableEq, Repr

/-- Where, if anywhere, the `try` block of `save_results` raises: at
`pd.DataFrame(episodes)` construction, at the primary `to_csv`, or at the
verification `read_csv`.  (A failure in the normalization loop behaves
like `atToCsv`: `df` is already bound.) -/
inductive PrimaryFail
  | noFail
  | atDataFrame
  | atToCsv
  | atReadCsv
  deriving DecidableEq, Repr

/-- The primary output path
`podcasts_brasil/{podcast_name}_brasil_{date}.csv`. -/
def outputFilename (podcastName date : String) : String :=
  "podcasts_brasil/" ++ podcastName ++ "_brasil_" ++ date ++ ".csv"

/-- The backup path `podcasts_brasil/backup_{podcast_name}_{date}.csv`. -/
def backupFilename (podcastName date : String) : String :=
  "podcasts_brasil/backup_" ++ podcastName ++ "_" ++ date ++ ".csv"

/-- `save_results(episodes, podcast_name)` as a trace of filesystem
operations plus whether an exception escapes the call.  An empty episode
list logs and returns before touching the filesystem.  Otherwise the
directory is ensured and the primary quoted write is attempted; on a
failure inside the `try`, the `except` block attempts one unquoted backup
write of `df` — unless the failure happened before `pd.DataFrame` bound
`df`, in which case the backup line itself raises `NameError` and no
backup write is attempted (the latent defect noted by the spec). -/
def save_results (episodes : List Episode) (podcastName date : String)
    (fail : PrimaryFail) (backupOk : Bool) : List FsOp × Bool :=
  if episodes.isEmpty then ([], false)
  else
    match fail with
    | PrimaryFail.noFail =>
      ([FsOp.mkdir "podcasts_brasil",
        FsOp.write (outputFilename podcastName date) episodes true true], false)
    | PrimaryFail.atDataFrame =>
      ([FsOp.mkdir "podcasts_brasil"], true)
    | PrimaryFail.atToCsv =>
      ([FsOp.mkdir "podcasts_brasil",
        FsOp.write (outputFilename podcastName date) episodes true false,
        FsOp.write (backupFilename podcastName date) episodes false backupOk], !backupOk)
    | PrimaryFail.atReadCsv =>
      ([FsOp.mkdir "podcasts_brasil",
        FsOp.write (outputFilename podcastName date) episodes true true,
        FsOp.write (backupFilename podcastName date) episodes false backupOk], !backupOk)

/-- Is this operation a write to the backup file of the given show/date? -/
def isBackupWrite (podcastName date : String) : FsOp → Bool
  | FsOp.write f _ _ _ => f == backupFilename podcastName date
  | _ => false

/-- A concrete episode for the writer scenarios. -/
def wEpisode : Episode :=
  Episode.mk "Brasil Colonial" "https://example.org/e1" "Data não disponível"

/-- An article with no `h2.dg_bm_title` element at all. -/
def silentArticle : Article := Article.mk none none

/-- Double every quote character, the CSV escaping used by
`to_csv(..., quoting=1)` (doublequote mode). -/
def escQuotes : List Char → List Char
  | [] => []
  | c :: cs => if c == '"' then '"' :: '"' :: escQuotes cs else c :: escQuotes cs

/-- A fully quoted CSV field. -/
def quoteField (s : String) : List Char :=
  '"' :: (escQuotes s.data ++ ['"'])

/-- One CSV record `"titulo","link","data"` terminated by a newline;
`quoting=1` (QUOTE_ALL) quotes every field, the header row included. -/
def csvRow (t l d : String) : List Char :=
  quoteField t ++ ',' :: quoteField l ++ ',' :: quoteField d ++ ['\n']

/-- The data records of the written file, in episode order. -/
def csvRowsOf (eps : List Episode) : List Char :=
  (eps.map (fun e => csvRow e.titulo e.link e.data)).flatten

/-- The text `df.to_csv(filename, index=False, encoding='utf-8-sig',
quoting=1)` writes: a byte-order mark, the quoted header row
`titulo,link,data`, then one quoted record per episode. -/
def writeCsv (eps : List Episode) : String :=
  String.mk ('﻿' :: (csvRow "titulo" "link" "data" ++ csvRowsOf eps))

/-- Parse the body of a quoted field, after its opening quote: a doubled
quote is a literal quote, a lone quote closes the field. -/
def parseQuoted : List Char → Option (List Char × List Char)
  | [] => none
  | c :: rest =>
    if c == '"' then
      match rest with
      | [] => some ([], [])
      | c2 :: rest2 =>
        if c2 == '"' then
          match parseQuoted rest2 with
          | some (f, r) => some ('"' :: f, r)
          | none => none
        else some ([], c2 :: rest2)
    else
      match parseQuoted rest with
      | some (f, r) => some (c :: f, r)
      | none => none

/-- Parse one quoted field, opening quote included. -/
def parseField : List Char → Option (List Char × List Char)
  | [] => none
  | c :: rest => if c == '"' then parseQuoted rest else none

/-- Parse one record: three quoted fields separated by commas and closed
by a newline, the parse `read_csv` performs per line. -/
def parseRow (l : List Char) : Option (Episode × List Char) :=
  match parseField l with
  | none => none
  | some (t, r1) =>
    match r1 with
    | ',' :: r2 =>
      match parseField r2 with
      | none => none
      | some (lk, r3) =>
        match r3 with
        | ',' :: r4 =>
          match parseField r4 with
          | none => none
          | some (dt, r5) =>
            match r5 with
            | '\n' :: r6 => some (Episode.mk (String.mk t) (String.mk lk) (String.mk dt), r6)
            | _ => none
        | _ => none
    | _ => none

/-- Parse records until the input is exhausted (fuel-bounded). -/
def parseRows : Nat → List Char → Option (List Episode)
  | _, [] => some []
  | 0, _ :: _ => none
  | fuel + 1, c :: rest =>
    match parseRow (c :: rest) with
    | none => none
    | some (e, r) =>
      match parseRows fuel r with
      | none => none
      | some es => some (e :: es)

/-- `utf-8-sig` decoding strips a leading byte-order mark. -/
def stripBom : List Char → List Char
  | [] => []
  | c :: rest => if c == '﻿' then rest else c :: rest

/-- `pd.read_csv(filename, encoding='utf-8-sig')` on the written text:
strip the byte-order mark, consume the header record, parse every data
record.  (Pandas dtype inference is out of scope: all fields are read
back as the character strings the records contain.) -/
def readCsv (s : String) : Option (List Episode) :=
  match parseRow (stripBom s.data) with
  | none => none
  | some (_, rest) =>
    match parseRows rest.length rest with
    | none => none
    | some es => some es

/-! ### Theorems -/

/-- `chSeqLeads` tests for an initial segment. -/
theorem chSeqLeads_iff (pat l : List Char) :
    chSeqLeads pat l = true ↔ ∃ rest, l = pat ++ rest := by
  induction pat generalizing l with
  | nil => simp [chSeqLeads]
  | cons p ps ih =>
    cases l with
    | nil => simp [chSeqLeads]
    | cons c cs =>
      simp [chSeqLeads, ih, eq_comm (a := p) (b := c)]

/-- `chSeqMem` tests for a contiguous occurrence (Python substring test). -/
theorem chSeqMem_iff (pat l : List Char) :
    chSeqMem pat l = true ↔ ∃ pre post, l = pre ++ pat ++ post := by
  induction l with
  | nil =>
    simp [chSeqMem, chSeqLeads_iff]
  | cons c cs ih =>
    simp [chSeqMem, chSeqLeads_iff, ih]
    constructor
    · rintro (⟨rest, h⟩ | ⟨pre, post, h⟩)
      · exact ⟨[], rest, by simp [h]⟩
      · exact ⟨c :: pre, post, by simp [h]⟩
    · rintro ⟨pre, post, h⟩
      cases pre with
      | nil => exact Or.inl ⟨post, by simpa using h⟩
      | cons x xs =>
        simp at h
        exact Or.inr ⟨xs, post, by simp [h.2]⟩

/-- A successfully extracted episode always passed the relevance filter. -/
theorem extract_some_related {a : Article} {ep : Episode}
    (h : (extract_episode_info a).1 = some ep) :
    is_brazil_related ep.titulo = true := by
  obtain ⟨te, ps⟩ := a
  cases te with
  | none => simp [extract_episode_info] at h
  | some te =>
    obtain ⟨anc⟩ := te
    cases anc with
    | none => simp [extract_episode_info] at h
    | some anc =>
      obtain ⟨txt, hrf⟩ := anc
      by_cases hrel : is_brazil_related (pyStrip txt) = true
      · cases hrf with
        | none => simp [extract_episode_info, hrel] at h
        | some link =>
          simp [extract_episode_info, hrel] at h
          rw [← h]
          exact hrel
      · simp [extract_episode_info, hrel] at h

/-- Every episode a page contributes passed the relevance filter. -/
theorem pageEpisodes_related {s : Soup} {ep : Episode} (h : ep ∈ pageEpisodes s) :
    is_brazil_related ep.titulo = true := by
  rcases List.mem_filterMap.mp h with ⟨a, _, ha⟩
  exact extract_some_related ha

/-- Every episode `scrape_podcast_page` returns passed the relevance filter. -/
theorem page_scrape_related {σ : Type} (fetch : Fetch σ) (st : σ) (url : String)
    {ep : Episode} (h : ep ∈ (scrape_podcast_page fetch st url).1) :
    is_brazil_related ep.titulo = true := by
  unfold scrape_podcast_page at h
  split at h
  · simp at h
  · exact pageEpisodes_related h

/-- The pagination loop only ever accumulates filter-passing episodes. -/
theorem loop_related {σ : Type} (fetch : Fetch σ) (fuel : Nat) :
    ∀ (st : σ) (cur : Option String) (acc eps : List Episode) (st' : σ),
      scrape_podcast_loop fetch fuel st cur acc = some (eps, st') →
      (∀ ep ∈ acc, is_brazil_related ep.titulo = true) →
      ∀ ep ∈ eps, is_brazil_related ep.titulo = true := by
  induction fuel with
  | zero =>
    intro st cur acc eps st' h hacc
    cases cur with
    | none =>
      simp [scrape_podcast_loop] at h
      exact h.1 ▸ hacc
    | some u => simp [scrape_podcast_loop] at h
  | succ n ih =>
    intro st cur acc eps st' h hacc
    cases cur with
    | none =>
      simp [scrape_podcast_loop] at h
      exact h.1 ▸ hacc
    | some u =>
      rw [scrape_podcast_loop] at h
      rcases hf : fetch st u with ⟨os, st2⟩
      rw [hf] at h
      cases os with
      | none =>
        simp at h
        exact h.1 ▸ hacc
      | some soup =>
        simp only at h
        refine ih _ _ _ _ _ h ?_
        intro ep hep
        rcases List.mem_append.mp hep with h1 | h2
        · exact hacc ep h1
        · exact page_scrape_related fetch st2 u h2

/-- The inclusion direction at article level: an article with an extractable
matching title produces its episode. -/
theorem extract_included (txt : String) (href : Option String) (link : String)
    (ps : Option String) (h1 : href = some link)
    (h2 : is_brazil_related (pyStrip txt) = true) :
    (extract_episode_info (Article.mk (some (TitleElem.mk (some (Anchor.mk txt href)))) ps)).1 =
      some (Episode.mk (pyStrip txt) link (dateOfSpan ps)) := by
  subst h1
  simp [extract_episode_info, h2]

/-- Claim C1: an episode appears in a result set if and only if its title
matched the keyword filter.  Forward: every episode in any `scrape_podcast`
result passes `is_brazil_related`.  Backward: every article of a page whose
extractable title passes the filter contributes an episode with that title
and link to the page's result set. -/
theorem c1_result_iff_keyword_title :
    (∀ (σ : Type) (fetch : Fetch σ) (fuel : Nat) (st : σ) (url : String)
        (eps : List Episode) (st' : σ),
        scrape_podcast fetch fuel st url = some (eps, st') →
        ∀ ep ∈ eps, is_brazil_related ep.titulo = true) ∧
    (∀ (s : Soup), ∀ a ∈ s.articles, ∀ (te : TitleElem) (anc : Anchor) (link : String),
        a.titleElem = some te → te.anchor = some anc → anc.href = some link →
        is_brazil_related (pyStrip anc.text) = true →
        ∃ ep ∈ pageEpisodes s, ep.titulo = pyStrip anc.text ∧ ep.link = link) := by
  constructor
  · intro σ fetch fuel st url eps st' h
    exact loop_related fetch fuel st (some url) [] eps st' h (by simp)
  · intro s a ha te anc link hte hanc hhref hrel
    obtain ⟨te0, ps0⟩ := a
    replace hte : te0 = some te := hte
    subst hte
    obtain ⟨anc0⟩ := te
    replace hanc : anc0 = some anc := hanc
    subst hanc
    obtain ⟨txt, hrf⟩ := anc
    replace hhref : hrf = some link := hhref
    replace hrel : is_brazil_related (pyStrip txt) = true := hrel
    refine ⟨Episode.mk (pyStrip txt) link (dateOfSpan ps0), ?_, rfl, rfl⟩
    apply List.mem_filterMap.mpr
    exact ⟨_, ha, extract_included txt hrf link ps0 hhref hrel⟩

/-- Witness for C1: the backward direction applied to the concrete page
`wSoup`, whose single article has the matching title `" Brasil Colonial "`. -/
theorem c1_witness :
    ∃ ep ∈ pageEpisodes wSoup,
      ep.titulo = pyStrip " Brasil Colonial " ∧ ep.link = "https://example.org/e1" :=
  c1_result_iff_keyword_title.2 wSoup wArticle (by decide)
    (TitleElem.mk (some (Anchor.mk " Brasil Colonial " (some "https://example.org/e1"))))
    (Anchor.mk " Brasil Colonial " (some "https://example.org/e1"))
    "https://example.org/e1" rfl rfl rfl (by decide)

/-- Claim C2: `is_brazil_related t` holds iff some keyword occurs as a
contiguous substring of the lowercased title, and the spec's two examples
evaluate as stated. -/
theorem c2_relevance_iff :
    (∀ t : String, is_brazil_related t = true ↔
      ∃ k ∈ brazil_keywords, ∃ pre post, (pyLower t).data = pre ++ k.data ++ post) ∧
    is_brazil_related "A Independência do Brasil" = true ∧
    is_brazil_related "Revolução Francesa" = false := by
  refine ⟨?_, by decide, by decide⟩
  intro t
  rw [is_brazil_related, List.any_eq_true]
  constructor
  · rintro ⟨k, hk, hmem⟩
    exact ⟨k, hk, (chSeqMem_iff k.data (pyLower t).data).mp hmem⟩
  · rintro ⟨k, hk, pre, post, hsplit⟩
    exact ⟨k, hk, (chSeqMem_iff k.data (pyLower t).data).mpr ⟨pre, post, hsplit⟩⟩

/-- Witness for C2: the characterization evaluated at the sample title. -/
theorem c2_witness :
    is_brazil_related "A Independência do Brasil" = true ∧
    (∃ k ∈ brazil_keywords, ∃ pre post,
      (pyLower "A Independência do Brasil").data = pre ++ k.data ++ post) :=
  ⟨c2_relevance_iff.2.1, (c2_relevance_iff.1 "A Independência do Brasil").mp c2_relevance_iff.2.1⟩

/-- With a deterministic fetch, a successful fetch of `url` makes
`scrape_podcast_page` return exactly that page's episodes. -/
theorem page_det (g : String → Option Soup) {σ : Type} (st : σ) (url : String) :
    scrape_podcast_page (detFetch g) st url =
      ((g url).map pageEpisodes |>.getD [], st) := by
  unfold scrape_podcast_page detFetch
  cases g url <;> simp

/-- Pagination against a deterministic fetch chain ending in a fetch
failure returns the concatenated episodes of the successfully fetched
pages, for any sufficient fuel and any starting accumulator. -/
theorem loop_det_chain (g : String → Option Soup) {σ : Type} :
    ∀ (soups : List Soup) (u : String), FetchChain g u soups →
      ∀ (fuel : Nat), soups.length < fuel → ∀ (st : σ) (acc : List Episode),
        scrape_podcast_loop (detFetch g) fuel st (some u) acc =
          some (acc ++ (soups.map pageEpisodes).flatten, st) := by
  intro soups u hchain
  induction hchain with
  | fail hfail =>
    intro fuel hfuel st acc
    cases fuel with
    | zero => omega
    | succ n =>
      rw [scrape_podcast_loop]
      simp [detFetch, hfail]
  | step hfetch hnext _ ih =>
    intro fuel hfuel st acc
    cases fuel with
    | zero => simp at hfuel
    | succ n =>
      rw [scrape_podcast_loop]
      simp only [detFetch, hfetch, page_det, hnext]
      rw [ih n (by simpa using hfuel) st _]
      simp [hfetch]

/-- Claim C3: if the fetch of the N-th listing page fails, the paginator
returns exactly the episodes already extracted from the first N-1 pages. -/
theorem c3_fetch_failure_keeps_prefix (g : String → Option Soup)
    (soups : List Soup) (u : String) (hchain : FetchChain g u soups)
    (fuel : Nat) (hfuel : soups.length < fuel) :
    scrape_podcast (detFetch g) fuel () u =
      some ((soups.map pageEpisodes).flatten, ()) := by
  unfold scrape_podcast
  rw [loop_det_chain g soups u hchain fuel hfuel () []]
  simp

/-- Witness for C3: two pages succeed, the third fetch fails, and both
pages' episodes are kept. -/
theorem c3_witness :
    scrape_podcast (detFetch gFailThird) 3 () "p1" =
      some (([sPage1, sPage2].map pageEpisodes).flatten, ()) :=
  c3_fetch_failure_keeps_prefix gFailThird [sPage1, sPage2] "p1"
    (@FetchChain.step gFailThird "p1" "p2" sPage1 [sPage2] (by decide) (by decide)
      (@FetchChain.step gFailThird "p2" "p3" sPage2 [] (by decide) (by decide)
        (@FetchChain.fail gFailThird "p3" (by decide))))
    3 (by decide)

/-- Claim C4: with a deterministic fetch the double-fetching paginator
equals the single-fetch variant; with an oracle whose second call fails
while the first succeeded, page 1 contributes zero episodes, yet the
paginator still advances and collects page 2 (four fetch calls occur). -/
theorem c4_refines_single_fetch :
    (∀ (σ : Type) (g : String → Option Soup) (fuel : Nat) (st : σ)
        (cur : Option String) (acc : List Episode),
        scrape_podcast_loop (detFetch g) fuel st cur acc =
          (singleFetchPaginator g fuel cur acc).map (fun eps => (eps, st))) ∧
    scrape_podcast (oracleFetch [some sPage1, none, some sPage3, some sPage3]) 2 0 "p1" =
      some ([Episode.mk "Guerra do Paraguai" "https://example.org/e3" "Data não disponível"], 4) := by
  constructor
  · intro σ g fuel
    induction fuel with
    | zero =>
      intro st cur acc
      cases cur with
      | none => simp [scrape_podcast_loop, singleFetchPaginator]
      | some u => simp [scrape_podcast_loop, singleFetchPaginator]
    | succ n ih =>
      intro st cur acc
      cases cur with
      | none => simp [scrape_podcast_loop, singleFetchPaginator]
      | some u =>
        rw [scrape_podcast_loop, singleFetchPaginator]
        cases hg : g u with
        | none => simp [detFetch, hg]
        | some soup =>
          simp only [detFetch, hg, page_det]
          rw [ih]
          simp [hg]
  · decide

/-- The self-linking page never lets the loop exit: no cycle detection. -/
theorem loop_no_cycle_detection (fuel : Nat) :
    ∀ (st : Unit) (acc : List Episode),
      scrape_podcast_loop (detFetch gLoop) fuel st (some "q") acc = none := by
  induction fuel with
  | zero => intro st acc; simp [scrape_podcast_loop]
  | succ n ih =>
    intro st acc
    rw [scrape_podcast_loop]
    simp only [detFetch, gLoop, page_det]
    have hnext : get_next_page_url sLoopPage = some "q" := by decide
    rw [hnext]
    exact ih st _

/-- Claim C5: on the three-page site where only the first two pages expose
a next link, the paginator visits exactly the three pages (each URL is
fetched twice, in order) and returns the three pages' filtered episodes;
and a site whose page links back to itself never terminates the loop (no
cycle detection), exhausting any amount of fuel. -/
theorem c5_three_page_termination :
    (scrape_podcast (logFetch gThree) 4 [] "p1" =
      some ([Episode.mk "Brasil Colonial" "https://example.org/e1" "Data não disponível",
             Episode.mk "Era Vargas e o Estado Novo" "https://example.org/e2" "1 de maio de 1937",
             Episode.mk "Guerra do Paraguai" "https://example.org/e3" "Data não disponível"],
            ["p1", "p1", "p2", "p2", "p3", "p3"])) ∧
    (∀ (fuel : Nat) (st : Unit),
      scrape_podcast (detFetch gLoop) fuel st "q" = none) := by
  constructor
  · decide
  · intro fuel st
    exact loop_no_cycle_detection fuel st []

/-- `process_podcast_link` never records an identifier twice. -/
theorem process_keys_nodup (l : LinkElem) (d : List (String × PodcastInfo))
    (h : (dictKeys d).Nodup) : (dictKeys (process_podcast_link l d)).Nodup := by
  unfold process_podcast_link
  by_cases hany : (d.any fun p => p.1 == urlShowName l.href) = true
  · simpa [hany] using h
  · have hnot : urlShowName l.href ∉ dictKeys d := by
      intro hin
      rcases List.mem_map.mp hin with ⟨p, hp, hfst⟩
      have : (d.any fun p => p.1 == urlShowName l.href) = true :=
        List.any_eq_true.mpr ⟨p, hp, by simp [hfst]⟩
      exact hany this
    rw [if_neg hany]
    have hkeys : dictKeys (d ++ [(urlShowName l.href,
        PodcastInfo.mk l.href (resolveDisplayName l (urlShowName l.href)))]) =
        dictKeys d ++ [urlShowName l.href] := by
      simp [dictKeys]
    rw [hkeys]
    refine List.Nodup.append h (List.nodup_singleton _) ?_
    intro a ha ha'
    rw [List.mem_singleton] at ha'
    exact hnot (ha' ▸ ha)

/-- Folding a key-dedup-preserving step preserves key dedup. -/
theorem foldl_keys_nodup {α : Type}
    (f : List (String × PodcastInfo) → α → List (String × PodcastInfo))
    (hf : ∀ d x, (dictKeys d).Nodup → (dictKeys (f d x)).Nodup) :
    ∀ (xs : List α) (d : List (String × PodcastInfo)),
      (dictKeys d).Nodup → (dictKeys (xs.foldl f d)).Nodup := by
  intro xs
  induction xs with
  | nil => intro d h; exact h
  | cons x xs ih => intro d h; exact ih (f d x) (hf d x h)

theorem pass1_keys_nodup (mc : MainContent) (d : List (String × PodcastInfo))
    (h : (dictKeys d).Nodup) : (dictKeys (discoverPass1 mc d)).Nodup := by
  refine foldl_keys_nodup _ ?_ mc.imageWrappers d h
  intro d w h'
  cases hw : w.anchors.head? with
  | none => simpa [hw] using h'
  | some l =>
    by_cases hp : hrefHasPrograma l = true
    · simpa [hp] using process_keys_nodup l d h'
    · simpa [hp] using h'

theorem pass2_keys_nodup (mc : MainContent) (d : List (String × PodcastInfo))
    (h : (dictKeys d).Nodup) : (dictKeys (discoverPass2 mc d)).Nodup := by
  refine foldl_keys_nodup _ ?_ (mc.anchors.filter hrefHasPrograma) d h
  intro d l h'
  by_cases hr : urlRecorded d l.href = true
  · simpa [hr] using h'
  · simpa [hr] using process_keys_nodup l d h'

theorem pass3_keys_nodup (mc : MainContent) (d : List (String × PodcastInfo))
    (h : (dictKeys d).Nodup) : (dictKeys (discoverPass3 mc d)).Nodup := by
  refine foldl_keys_nodup _ ?_ mc.contentBlocks d h
  intro d b h'
  cases hb : (b.anchors.filter hrefHasPrograma).head? with
  | none => simpa [hb] using h'
  | some l =>
    by_cases hr : urlRecorded d l.href = true
    · simpa [hr] using h'
    · simpa [hr] using process_keys_nodup l d h'

/-- Claim C6 -/
theorem c6_discovery_dedup :
    (∀ landing : Option LandingSoup,
      (dictKeys (discover_podcast_links landing)).Nodup) ∧
    discover_podcast_links (some (LandingSoup.mk (some mcC6))) =
      [("show-x", PodcastInfo.mk "https://leituraobrigahistoria.com/programa/show-x/"
        "Show X Bonito")] := by
  constructor
  · intro landing
    cases landing with
    | none => simp [discover_podcast_links, dictKeys]
    | some soup =>
      obtain ⟨ma⟩ := soup
      cases ma with
      | none => simp [discover_podcast_links, dictKeys]
      | some mc =>
        exact pass3_keys_nodup mc _ (pass2_keys_nodup mc _ (pass1_keys_nodup mc []
          (by simp [dictKeys])))
  · decide

/-- Claim C7, code evaluation at the failing input: when the primary path
fails at `pd.DataFrame` construction, no backup write is attempted and the
`NameError` escapes — whereas failures after construction do attempt
exactly one unquoted backup write to the differently named backup file. -/
theorem c7_no_fallback_at_df_failure :
    ((save_results [wEpisode] "show" "20240101" PrimaryFail.atDataFrame true).1.filter
      (isBackupWrite "show" "20240101")).length = 0 ∧
    (save_results [wEpisode] "show" "20240101" PrimaryFail.atDataFrame true).2 = true ∧
    ((save_results [wEpisode] "show" "20240101" PrimaryFail.atToCsv true).1.filter
      (isBackupWrite "show" "20240101")).length = 1 ∧
    ((save_results [wEpisode] "show" "20240101" PrimaryFail.atReadCsv true).1.filter
      (isBackupWrite "show" "20240101")).length = 1 ∧
    backupFilename "show" "20240101" ≠ outputFilename "show" "20240101" := by
  decide

/-- Claim C9: called with an empty episode list, the writer performs no
filesystem operation at all — no directory creation, no file write — and
returns normally. -/
theorem c9_empty_list_noop :
    ∀ (podcastName date : String) (fail : PrimaryFail) (backupOk : Bool),
      save_results [] podcastName date fail backupOk = ([], false) := by
  intro podcastName date fail backupOk
  rfl

/-- Counterexample to C8 as stated: an article whose expected title element
is missing is skipped, but nothing is logged (the `return None` at the top
of `extract_episode_info` prints no message). -/
theorem c8_counterexample_silent_skip :
    (extract_episode_info silentArticle).1 = none ∧
    (extract_episode_info silentArticle).2 = [] := by
  decide

/-- Claim C8 as amended: a structural failure that raises inside the `try`
(an anchor without `href`) is logged; a missing title heading or anchor is
skipped silently; in every case only the enclosing item is skipped — a
failing article in any position leaves its siblings' episodes intact, and
an image wrapper without an anchor leaves the rest of the discovery pass
intact. -/
theorem c8_item_isolation :
    (∀ (nav : Option NavDiv) (xs ys : List Article) (m : Article),
        (extract_episode_info m).1 = none →
        pageEpisodes (Soup.mk (xs ++ m :: ys) nav) =
          pageEpisodes (Soup.mk xs nav) ++ pageEpisodes (Soup.mk ys nav)) ∧
    (∀ (txt : String) (ps : Option String),
        is_brazil_related (pyStrip txt) = true →
        extract_episode_info (Article.mk (some (TitleElem.mk (some (Anchor.mk txt none)))) ps) =
          (none, ["Erro ao extrair informações do episódio: KeyError: href"])) ∧
    (∀ (iw iw' : List ImageWrapper) (ancs : List LinkElem) (blocks : List ContentBlock)
        (d : List (String × PodcastInfo)),
        discoverPass1 (MainContent.mk (iw ++ ImageWrapper.mk [] :: iw') ancs blocks) d =
          discoverPass1 (MainContent.mk (iw ++ iw') ancs blocks) d) := by
  refine ⟨?_, ?_, ?_⟩
  · intro nav xs ys m hm
    simp [pageEpisodes, List.filterMap_append, List.filterMap_cons, hm]
  · intro txt ps hrel
    simp [extract_episode_info, hrel]
  · intro iw iw' ancs blocks d
    simp [discoverPass1, List.foldl_append]

/-- Witness for the amended C8 theorem at concrete inputs. -/
theorem c8_witness :
    pageEpisodes (Soup.mk ([wArticle] ++ silentArticle :: [wArticle]) none) =
      pageEpisodes (Soup.mk [wArticle] none) ++ pageEpisodes (Soup.mk [wArticle] none) ∧
    extract_episode_info (Article.mk (some (TitleElem.mk (some (Anchor.mk "Brasil" none)))) none) =
      (none, ["Erro ao extrair informações do episódio: KeyError: href"]) ∧
    discoverPass1 (MainContent.mk ([] ++ ImageWrapper.mk [] :: []) [] []) [] =
      discoverPass1 (MainContent.mk ([] ++ []) [] []) [] :=
  ⟨c8_item_isolation.1 none [wArticle] [wArticle] silentArticle (by decide),
   c8_item_isolation.2.1 "Brasil" none (by decide),
   c8_item_isolation.2.2 [] [] [] [] []⟩

/-- Unfolding lemma: `parseQuoted` on a non-quote head character. -/
theorem parseQuoted_cons_ne (a : Char) (x : List Char) (ha : (a == '"') = false) :
    parseQuoted (a :: x) =
      match parseQuoted x with
      | some (f, r) => some (a :: f, r)
      | none => none := by
  rw [parseQuoted.eq_def]
  simp [ha]

/-- Parsing the escaped body of a field recovers it, provided the cursor
after the closing quote does not itself start with a quote. -/
theorem parseQuoted_escape (u : List Char) :
    ∀ (rest : List Char), rest.head? ≠ some '"' →
      parseQuoted (escQuotes u ++ '"' :: rest) = some (u, rest) := by
  induction u with
  | nil =>
    intro rest h
    cases rest with
    | nil => simp [escQuotes, parseQuoted]
    | cons c2 rs =>
      have hc2 : (c2 == '"') = false := by
        simp at h
        simp [h]
      simp [escQuotes, parseQuoted, hc2]
  | cons a u' ih =>
    intro rest h
    by_cases ha : a = '"'
    · subst ha
      simp [escQuotes, parseQuoted, ih rest h]
    · have ha' : (a == '"') = false := by simp [ha]
      have he : escQuotes (a :: u') = a :: escQuotes u' := by simp [escQuotes, ha']
      rw [he, List.cons_append, parseQuoted_cons_ne a _ ha', ih rest h]

/-- Parsing a quoted field recovers the field text. -/
theorem parseField_encode (s : String) (rest : List Char) (h : rest.head? ≠ some '"') :
    parseField (quoteField s ++ rest) = some (s.data, rest) := by
  have : quoteField s ++ rest = '"' :: (escQuotes s.data ++ '"' :: rest) := by
    simp [quoteField]
  rw [this]
  simp [parseField, parseQuoted_escape s.data rest h]

/-- Parsing one encoded record recovers the episode and leaves the rest. -/
theorem parseRow_encode (t l d : String) (rest : List Char) :
    parseRow (csvRow t l d ++ rest) = some (Episode.mk t l d, rest) := by
  have hsplit : csvRow t l d ++ rest =
      quoteField t ++ (',' :: (quoteField l ++ (',' :: (quoteField d ++ ('\n' :: rest))))) := by
    simp [csvRow]
  have h1 := parseField_encode t
    (',' :: (quoteField l ++ (',' :: (quoteField d ++ ('\n' :: rest))))) (by simp)
  have h2 := parseField_encode l (',' :: (quoteField d ++ ('\n' :: rest))) (by simp)
  have h3 := parseField_encode d ('\n' :: rest) (by simp)
  rw [hsplit]
  simp [parseRow, h1, h2, h3]

/-- Every encoded record is at least one character long. -/
theorem csvRow_length_pos (t l d : String) : 0 < (csvRow t l d).length := by
  simp [csvRow, quoteField]

/-- The encoded records are at least as many characters as episodes. -/
theorem csvRowsOf_length (eps : List Episode) : eps.length ≤ (csvRowsOf eps).length := by
  induction eps with
  | nil => simp [csvRowsOf]
  | cons e es ih =>
    have hpos := csvRow_length_pos e.titulo e.link e.data
    simp only [csvRowsOf, List.map_cons, List.flatten_cons, List.length_append,
      List.length_cons] at ih ⊢
    omega

/-- Parsing the encoded records recovers the episode list, for any fuel of
at least the episode count. -/
theorem parseRows_encode (eps : List Episode) :
    ∀ (fuel : Nat), eps.length ≤ fuel → parseRows fuel (csvRowsOf eps) = some eps := by
  induction eps with
  | nil =>
    intro fuel _
    simp [csvRowsOf, parseRows]
  | cons e es ih =>
    intro fuel hfuel
    cases fuel with
    | zero => simp at hfuel
    | succ n =>
      have hrow : csvRowsOf (e :: es) = csvRow e.titulo e.link e.data ++ csvRowsOf es := by
        simp [csvRowsOf]
      have hcons : csvRow e.titulo e.link e.data ++ csvRowsOf es =
          '"' :: ((escQuotes e.titulo.data ++ ['"']) ++
            (',' :: quoteField e.link ++ ',' :: quoteField e.data ++ ['\n']) ++ csvRowsOf es) := by
        simp [csvRow, quoteField]
      rw [hrow, hcons, parseRows]
      rw [← hcons, parseRow_encode]
      simp [ih n (by simpa using hfuel)]

/-- Claim C10 -/
theorem c10_csv_roundtrip (eps : List Episode) (hne : eps ≠ []) :
    readCsv (writeCsv eps) = some eps := by
  unfold readCsv writeCsv
  have hbom : stripBom (String.mk ('﻿' :: (csvRow "titulo" "link" "data" ++ csvRowsOf eps))).data =
      csvRow "titulo" "link" "data" ++ csvRowsOf eps := by
    simp [stripBom]
  rw [hbom, parseRow_encode]
  simp [parseRows_encode eps (csvRowsOf eps).length (csvRowsOf_length eps)]

/-- Witness for C10: a non-ASCII title round-trips byte for byte. -/
theorem c10_witness :
    readCsv (writeCsv [Episode.mk "Dom Pedro II e o Império" "https://example.org/ep"
      "1 de abril de 2020"]) =
      some [Episode.mk "Dom Pedro II e o Império" "https://example.org/ep"
        "1 de abril de 2020"] :=
  c10_csv_roundtrip
    [Episode.mk "Dom Pedro II e o Império" "https://example.org/ep" "1 de abril de 2020"]
    (by decide)

end PodScrap
